import Mathlib

/-!
# Verification of the Rust-CLI CSV processor core (`src/processor.rs`)

Shallow embedding of the processing pipeline: CSV parsing into typed
records, threshold filtering, global fold/reduce aggregation, and grouped
per-sensor aggregation.  Rust `f64` values are modelled as `ℚ`, `usize`
as `ℕ`, the file content as a `List (List String)` (rows of cells, first
row the header), and console output of the core as a `List String` of
printed lines.  The rayon parallel fold/reduce is embedded sequentially,
with partition-independence proved separately; the mutex-guarded
`HashMap<String, Accumulator>` is embedded as an association list built
in row order, with order-independence (permutation invariance) proved
separately.
-/

namespace RustCLI

/-- Whitespace test used by the CSV reader's `Trim::All`. -/
def isWs (c : Char) : Bool := c.isWhitespace

/-- Trim leading and trailing whitespace from a character list. -/
def trimChars (cs : List Char) : List Char :=
  ((cs.dropWhile isWs).reverse.dropWhile isWs).reverse

/-- Trim leading and trailing whitespace from a string
(`csv::Trim::All` applied to one cell). -/
def trimStr (s : String) : String := String.mk (trimChars s.toList)

/-- Digit run to a natural number. -/
def digitsToNat (ds : List Char) : ℕ :=
  ds.foldl (fun n c => n * 10 + (c.toNat - 48)) 0

/-- Parse an unsigned decimal literal `digits` or `digits.digits`
(the float syntax the input files use). -/
def parseUnsigned (cs : List Char) : Option ℚ :=
  let intPart := cs.takeWhile Char.isDigit
  let rest := cs.dropWhile Char.isDigit
  if intPart.isEmpty then none
  else
    match rest with
    | [] => some (digitsToNat intPart)
    | '.' :: frac =>
        if !frac.isEmpty && frac.all Char.isDigit then
          some ((digitsToNat intPart : ℚ) + (digitsToNat frac : ℚ) / (10 : ℚ) ^ frac.length)
        else none
    | _ => none

/-- Parse a (possibly signed) decimal literal, the model of
`f64::from_str` on the `Value` field. -/
def parseFloat (s : String) : Option ℚ :=
  match s.toList with
  | '-' :: rest => (parseUnsigned rest).map Neg.neg
  | '+' :: rest => parseUnsigned rest
  | cs => parseUnsigned cs

/-- `Record` from `processor.rs`: one typed CSV row.
`value : f64` is modelled as `ℚ`. -/
structure Record where
  timestamp : String
  sensor_id : String
  value : ℚ
deriving DecidableEq, Repr

/-- `SensorStats` from `processor.rs`. -/
structure SensorStats where
  sensor_id : String
  count : ℕ
  average : ℚ
deriving DecidableEq, Repr

/-- `ProcessingStats` from `processor.rs`. -/
structure ProcessingStats where
  total_rows : ℕ
  filtered_rows : ℕ
  average : Option ℚ
  per_sensor : List SensorStats
deriving DecidableEq, Repr

/-- `Accumulator` from `processor.rs`: mergeable (count, sum) pair. -/
structure Accumulator where
  count : ℕ
  sum : ℚ
deriving DecidableEq, Repr

/-- `Accumulator::default()` (count = 0, sum = 0.0). -/
def Accumulator.default : Accumulator := ⟨0, 0⟩

/-- `Accumulator::add`: increment count, add the value to the sum. -/
def Accumulator.add (a : Accumulator) (value : ℚ) : Accumulator :=
  ⟨a.count + 1, a.sum + value⟩

/-- `Accumulator::merge`: pairwise sums of counts and sums. -/
def Accumulator.merge (a b : Accumulator) : Accumulator :=
  ⟨a.count + b.count, a.sum + b.sum⟩

instance {ε α : Type} [DecidableEq ε] [DecidableEq α] :
    DecidableEq (Except ε α) := fun a b =>
  match a, b with
  | .error e, .error e' =>
    if h : e = e' then .isTrue (by rw [h]) else .isFalse (by simp [h])
  | .error _, .ok _ => .isFalse (by simp)
  | .ok _, .error _ => .isFalse (by simp)
  | .ok x, .ok y =>
    if h : x = y then .isTrue (by rw [h]) else .isFalse (by simp [h])

/-- Parse errors of the reader (`csv`/`serde` failures surfaced by
`read_csv`), with the offending row index attached. -/
inductive ParseError where
  | unequalLengths (row : ℕ)
  | missingColumn (name : String) (row : ℕ)
  | badValue (field : String) (row : ℕ)
deriving DecidableEq, Repr

/-- Index of the column with the given (trimmed) header name:
the header lookup serde performs for each renamed struct field. -/
def colIdx (name : String) : List String → Option ℕ
  | [] => none
  | h :: rest => if h = name then some 0 else (colIdx name rest).map (· + 1)

/-- Deserialize one (already trimmed) data row against the (already
trimmed) header: columns are matched by header name (`Timestamp`,
`SensorID`, `Value`), not by position. -/
def parseRow (header : List String) (rowIdx : ℕ) (row : List String) :
    Except ParseError Record :=
  if row.length ≠ header.length then .error (.unequalLengths rowIdx)
  else
    match colIdx "Timestamp" header with
    | none => .error (.missingColumn "Timestamp" rowIdx)
    | some it =>
      match colIdx "SensorID" header with
      | none => .error (.missingColumn "SensorID" rowIdx)
      | some is =>
        match colIdx "Value" header with
        | none => .error (.missingColumn "Value" rowIdx)
        | some iv =>
          let vfield := row.getD iv ""
          match parseFloat vfield with
          | none => .error (.badValue vfield rowIdx)
          | some q => .ok ⟨row.getD it "", row.getD is "", q⟩

/-- Deserialize the data rows in order, stopping at the first failure
(the model of `reader.deserialize().collect::<Result<Vec<_>,_>>()`). -/
def parseRows (header : List String) : ℕ → List (List String) →
    Except ParseError (List Record)
  | _, [] => .ok []
  | i, row :: rest =>
    match parseRow header i row with
    | .error e => .error e
    | .ok r =>
      match parseRows header (i + 1) rest with
      | .error e => .error e
      | .ok rs => .ok (r :: rs)

/-- `read_csv`: trim every cell (`Trim::All` trims headers and fields),
take the first row as the header, deserialize the rest.  A file with no
rows at all yields an empty record list. -/
def read_csv (content : List (List String)) : Except ParseError (List Record) :=
  match content.map (fun row => row.map trimStr) with
  | [] => .ok []
  | header :: rows => parseRows header 0 rows

/-- One rayon worker's fold over its chunk: filter by `value > threshold`
and fold the survivors into a local `Accumulator` by repeated `add`. -/
def foldChunk (threshold : ℚ) (chunk : List Record) : Accumulator :=
  (chunk.filter (fun r => threshold < r.value)).foldl
    (fun acc r => acc.add r.value) Accumulator.default

/-- The rayon reduce: combine the partial accumulators with `merge`,
seeded with `Accumulator::default()`. -/
def reduceAccs (accs : List Accumulator) : Accumulator :=
  accs.foldl Accumulator.merge Accumulator.default

/-- The global aggregation of `process` (filter → fold → reduce),
embedded with the whole record list as a single chunk. -/
def globalAcc (records : List Record) (threshold : ℚ) : Accumulator :=
  reduceAccs [foldChunk threshold records]

/-- `guard.entry(sensor_id).or_default().add(value)`: look up or create
the accumulator for the key and add the value to it. -/
def addToMap : List (String × Accumulator) → String → ℚ →
    List (String × Accumulator)
  | [], key, v => [(key, Accumulator.default.add v)]
  | (k, a) :: rest, key, v =>
    if k = key then (k, a.add v) :: rest
    else (k, a) :: addToMap rest key v

/-- The shared sensor map after all workers finish: every filtered
record's value added under its `sensor_id` (embedded in row order; the
order does not matter, see the permutation-invariance theorems). -/
def buildSensorMap (records : List Record) (threshold : ℚ) :
    List (String × Accumulator) :=
  (records.filter (fun r => threshold < r.value)).foldl
    (fun m r => addToMap m r.sensor_id r.value) []

/-- `compute_per_sensor_stats`: drain the map into `SensorStats`
(average = sum / count) and sort ascending by `sensor_id`. -/
def compute_per_sensor_stats (records : List Record) (threshold : ℚ) :
    List SensorStats :=
  List.insertionSort (fun a b => a.sensor_id ≤ b.sensor_id)
    ((buildSensorMap records threshold).map
      (fun p => ⟨p.1, p.2.count, p.2.sum / (p.2.count : ℚ)⟩))

/-- Pad a string on the right with spaces to the given width
(`{:<w}` in a Rust format string). -/
def padRight (s : String) (w : ℕ) : String :=
  s ++ String.mk (List.replicate (w - s.length) ' ')

/-- Pad a string on the left with spaces to the given width
(`{:>w}` in a Rust format string). -/
def padLeft (s : String) (w : ℕ) : String :=
  String.mk (List.replicate (w - s.length) ' ') ++ s

/-- One body line of the sensor table. -/
def sensorLine (s : SensorStats) : String :=
  "  " ++ padRight s.sensor_id 20 ++ " " ++ padLeft (toString s.count) 10
    ++ " " ++ padLeft (toString s.average) 16

/-- `print_sensor_table`: the lines printed to the console, in order. -/
def print_sensor_table (stats : List SensorStats) : List String :=
  [""]
    ++ ["  " ++ padRight "Sensor ID" 20 ++ " " ++ padLeft "Row Count" 10
          ++ " " ++ padLeft "Average Value" 16]
    ++ ["  " ++ String.mk (List.replicate 20 '-') ++ " "
          ++ String.mk (List.replicate 10 '-') ++ " "
          ++ String.mk (List.replicate 16 '-')]
    ++ stats.map sensorLine
    ++ [""]

/-- The body of `process` after a successful `read_csv` (§4.5's
Statistics Assembler): aggregate, assemble the `ProcessingStats`, and
produce the console output the call itself prints (second component). -/
def assembleStats (records : List Record) (threshold : ℚ) (verbose : Bool) :
    ProcessingStats × List String :=
  let total_rows := records.length
  let global_acc := globalAcc records threshold
  let filtered_rows := global_acc.count
  let average : Option ℚ :=
    if global_acc.count > 0 then some (global_acc.sum / (global_acc.count : ℚ))
    else none
  let per_sensor :=
    if verbose then compute_per_sensor_stats records threshold else []
  let output :=
    if verbose && !per_sensor.isEmpty then print_sensor_table per_sensor
    else []
  (⟨total_rows, filtered_rows, average, per_sensor⟩, output)

/-- `process(path, threshold, verbose)`: the core entry point.  The
file's parsed content stands in for the path; the second component of a
successful result is the console output the call itself produced. -/
def process (content : List (List String)) (threshold : ℚ) (verbose : Bool) :
    Except ParseError (ProcessingStats × List String) :=
  match read_csv content with
  | .error e => .error e
  | .ok records => .ok (assembleStats records threshold verbose)

/-! ## Accumulator algebra and the global aggregation -/

theorem Accumulator.merge_assoc (a b c : Accumulator) :
    (a.merge b).merge c = a.merge (b.merge c) := by
  simp [Accumulator.merge, add_assoc]

theorem Accumulator.merge_comm (a b : Accumulator) :
    a.merge b = b.merge a := by
  simp [Accumulator.merge, add_comm]

theorem Accumulator.default_merge (a : Accumulator) :
    Accumulator.default.merge a = a := by
  simp [Accumulator.merge, Accumulator.default]

theorem Accumulator.merge_default (a : Accumulator) :
    a.merge Accumulator.default = a := by
  simp [Accumulator.merge, Accumulator.default]

theorem foldl_add_acc (l : List Record) (a : Accumulator) :
    l.foldl (fun acc r => acc.add r.value) a =
      ⟨a.count + l.length, a.sum + (l.map Record.value).sum⟩ := by
  induction l generalizing a with
  | nil => simp
  | cons r rest ih =>
    rw [List.foldl_cons, ih (a.add r.value), Accumulator.mk.injEq]
    simp only [Accumulator.add, List.length_cons, List.map_cons, List.sum_cons]
    exact ⟨by omega, by ring⟩

theorem foldChunk_eq (t : ℚ) (l : List Record) :
    foldChunk t l =
      ⟨(l.filter (fun r => t < r.value)).length,
        ((l.filter (fun r => t < r.value)).map Record.value).sum⟩ := by
  simp [foldChunk, foldl_add_acc, Accumulator.default]

theorem globalAcc_eq (l : List Record) (t : ℚ) :
    globalAcc l t =
      ⟨(l.filter (fun r => t < r.value)).length,
        ((l.filter (fun r => t < r.value)).map Record.value).sum⟩ := by
  simp [globalAcc, reduceAccs, foldChunk_eq, Accumulator.default_merge]

theorem assembleStats_total_rows (recs : List Record) (t : ℚ) (v : Bool) :
    (assembleStats recs t v).1.total_rows = recs.length := rfl

theorem assembleStats_filtered_rows (recs : List Record) (t : ℚ) (v : Bool) :
    (assembleStats recs t v).1.filtered_rows =
      (recs.filter (fun r => t < r.value)).length := by
  show (globalAcc recs t).count = _
  rw [globalAcc_eq]

theorem assembleStats_average (recs : List Record) (t : ℚ) (v : Bool) :
    (assembleStats recs t v).1.average =
      if 0 < (recs.filter (fun r => t < r.value)).length then
        some (((recs.filter (fun r => t < r.value)).map Record.value).sum /
          ((recs.filter (fun r => t < r.value)).length : ℚ))
      else none := by
  show (if (globalAcc recs t).count > 0 then
      some ((globalAcc recs t).sum / ((globalAcc recs t).count : ℚ)) else none) = _
  rw [globalAcc_eq]

theorem assembleStats_per_sensor (recs : List Record) (t : ℚ) (v : Bool) :
    (assembleStats recs t v).1.per_sensor =
      if v then compute_per_sensor_stats recs t else [] := rfl

theorem process_ok_elim (content : List (List String)) (t : ℚ) (v : Bool)
    (recs : List Record) (s : ProcessingStats) (out : List String)
    (hr : read_csv content = .ok recs)
    (hp : process content t v = .ok (s, out)) :
    assembleStats recs t v = (s, out) := by
  rw [process, hr] at hp
  exact Except.ok.inj hp

/-! ## C1, C2, C10 -/

/-- C1: for every input file and threshold, the `ProcessingStats`
returned by `process` has `filtered_rows` equal to the number of parsed
records whose value is strictly greater than the threshold (a record
whose value equals the threshold exactly is excluded by the strict
`t < value` test), and `filtered_rows ≤ total_rows`. -/
theorem C1_filtered_rows_strict_count (content : List (List String))
    (t : ℚ) (v : Bool) (recs : List Record) (s : ProcessingStats)
    (out : List String) (hr : read_csv content = .ok recs)
    (hp : process content t v = .ok (s, out)) :
    s.filtered_rows = (recs.filter (fun r => t < r.value)).length ∧
      s.filtered_rows ≤ s.total_rows := by
  have h := process_ok_elim content t v recs s out hr hp
  have hs : (assembleStats recs t v).1 = s := by rw [h]
  constructor
  · rw [← hs, assembleStats_filtered_rows]
  · rw [← hs, assembleStats_filtered_rows, assembleStats_total_rows]
    exact List.length_filter_le _ recs

theorem C1_witness :
    read_csv [["Timestamp", "SensorID", "Value"], ["t0", "S1", "10.0"],
        ["t1", "S2", "60.0"], ["t2", "S1", "80.0"], ["t3", "S3", "30.0"]] =
      .ok [⟨"t0", "S1", 10⟩, ⟨"t1", "S2", 60⟩, ⟨"t2", "S1", 80⟩,
        ⟨"t3", "S3", 30⟩] ∧
    process [["Timestamp", "SensorID", "Value"], ["t0", "S1", "10.0"],
        ["t1", "S2", "60.0"], ["t2", "S1", "80.0"], ["t3", "S3", "30.0"]]
        50 false = .ok (⟨4, 2, some 70, []⟩, []) ∧
    (2 = ([⟨"t0", "S1", 10⟩, ⟨"t1", "S2", 60⟩, ⟨"t2", "S1", 80⟩,
        (⟨"t3", "S3", 30⟩ : Record)].filter (fun r => 50 < r.value)).length ∧
      2 ≤ 4) := by
  refine ⟨by with_unfolding_all decide, by with_unfolding_all decide, ?_⟩
  exact C1_filtered_rows_strict_count
    [["Timestamp", "SensorID", "Value"], ["t0", "S1", "10.0"],
      ["t1", "S2", "60.0"], ["t2", "S1", "80.0"], ["t3", "S3", "30.0"]]
    50 false
    [⟨"t0", "S1", 10⟩, ⟨"t1", "S2", 60⟩, ⟨"t2", "S1", 80⟩, ⟨"t3", "S3", 30⟩]
    ⟨4, 2, some 70, []⟩ []
    (by with_unfolding_all decide) (by with_unfolding_all decide)

/-- C2: for every successful run of `process`, `average` is `some` iff
`filtered_rows > 0`, and when present it equals the sum of the filtered
records' values divided by `filtered_rows` (exactly, in the `ℚ` model
of `f64`). -/
theorem C2_average_iff_filtered (content : List (List String))
    (t : ℚ) (v : Bool) (recs : List Record) (s : ProcessingStats)
    (out : List String) (hr : read_csv content = .ok recs)
    (hp : process content t v = .ok (s, out)) :
    (s.average.isSome ↔ 0 < s.filtered_rows) ∧
      ∀ q, s.average = some q →
        q = ((recs.filter (fun r => t < r.value)).map Record.value).sum /
          (s.filtered_rows : ℚ) := by
  have h := process_ok_elim content t v recs s out hr hp
  have hs : (assembleStats recs t v).1 = s := by rw [h]
  rw [← hs, assembleStats_average, assembleStats_filtered_rows]
  by_cases hpos : 0 < (recs.filter (fun r => t < r.value)).length
  · simp [hpos]
  · simp [hpos]

theorem C2_witness :
    read_csv [["Timestamp", "SensorID", "Value"], ["t0", "S1", "10.0"],
        ["t1", "S2", "60.0"], ["t2", "S1", "80.0"], ["t3", "S3", "30.0"]] =
      .ok [⟨"t0", "S1", 10⟩, ⟨"t1", "S2", 60⟩, ⟨"t2", "S1", 80⟩,
        (⟨"t3", "S3", 30⟩ : Record)] ∧
    ((Option.isSome (some (70 : ℚ)) ↔ 0 < 2) ∧
      ∀ q : ℚ, some (70 : ℚ) = some q →
        q = (([⟨"t0", "S1", 10⟩, ⟨"t1", "S2", 60⟩, ⟨"t2", "S1", 80⟩,
          (⟨"t3", "S3", 30⟩ : Record)].filter
            (fun r => 50 < r.value)).map Record.value).sum / ((2 : ℕ) : ℚ)) := by
  refine ⟨by with_unfolding_all decide, ?_⟩
  exact C2_average_iff_filtered
    [["Timestamp", "SensorID", "Value"], ["t0", "S1", "10.0"],
      ["t1", "S2", "60.0"], ["t2", "S1", "80.0"], ["t3", "S3", "30.0"]]
    50 false
    [⟨"t0", "S1", 10⟩, ⟨"t1", "S2", 60⟩, ⟨"t2", "S1", 80⟩, ⟨"t3", "S3", 30⟩]
    ⟨4, 2, some 70, []⟩ []
    (by with_unfolding_all decide) (by with_unfolding_all decide)

/-- C10: for every successful run of `process` with `verbose = false`,
the `per_sensor` field of the returned `ProcessingStats` is empty,
whatever the file content and threshold. -/
theorem C10_nonverbose_per_sensor_empty (content : List (List String))
    (t : ℚ) (s : ProcessingStats) (out : List String)
    (hp : process content t false = .ok (s, out)) :
    s.per_sensor = [] := by
  match hr : read_csv content with
  | .error e => rw [process, hr] at hp; exact absurd hp (by simp)
  | .ok recs =>
    have h := process_ok_elim content t false recs s out hr hp
    have hs : (assembleStats recs t false).1 = s := by rw [h]
    rw [← hs, assembleStats_per_sensor]
    simp

theorem C10_witness : ([] : List SensorStats) = [] :=
  C10_nonverbose_per_sensor_empty
    [["Timestamp", "SensorID", "Value"], ["t0", "S1", "10.0"]] 0
    ⟨1, 1, some 10, []⟩ [] (by with_unfolding_all decide)

/-! ## C5: merge is a commutative monoid operation with identity default -/

/-- C5: `Accumulator.merge` is associative and commutative on both count
and sum, and the empty accumulator (`default`, count = 0, sum = 0.0) is a
two-sided identity for it; `default` is the fold seed (`foldChunk` of no
records) and the reduce identity (`reduceAccs` of no partials). -/
theorem C5_merge_assoc_comm_identity :
    (∀ a b c : Accumulator, (a.merge b).merge c = a.merge (b.merge c)) ∧
    (∀ a b : Accumulator, a.merge b = b.merge a) ∧
    Accumulator.default = ⟨0, 0⟩ ∧
    (∀ a : Accumulator, Accumulator.default.merge a = a) ∧
    (∀ a : Accumulator, a.merge Accumulator.default = a) ∧
    (∀ t : ℚ, foldChunk t [] = Accumulator.default) ∧
    reduceAccs [] = Accumulator.default :=
  ⟨Accumulator.merge_assoc, Accumulator.merge_comm, rfl,
    Accumulator.default_merge, Accumulator.merge_default,
    fun _ => rfl, rfl⟩

/-! ## The grouped (per-sensor) aggregation -/

/-- The accumulator stored under a key of the shared map
(`default` when the key is absent). -/
def mapGet : List (String × Accumulator) → String → Accumulator
  | [], _ => Accumulator.default
  | p :: rest, s => if p.1 = s then p.2 else mapGet rest s

theorem mapGet_addToMap (m : List (String × Accumulator)) (k : String)
    (v : ℚ) (s : String) :
    mapGet (addToMap m k v) s =
      if s = k then (mapGet m s).add v else mapGet m s := by
  induction m with
  | nil =>
    by_cases h : s = k
    · subst h; simp [addToMap, mapGet]
    · simp [addToMap, mapGet, h, Ne.symm h]
  | cons p rest ih =>
    obtain ⟨pk, pa⟩ := p
    by_cases hpk : pk = k
    · subst hpk
      by_cases hs : s = pk
      · subst hs; simp [addToMap, mapGet]
      · simp [addToMap, mapGet, hs, Ne.symm hs]
    · by_cases hs : pk = s
      · subst hs
        simp [addToMap, mapGet, hpk, Ne.symm hpk]
      · simp [addToMap, mapGet, hpk, hs, ih]

theorem keys_addToMap (m : List (String × Accumulator)) (k : String) (v : ℚ) :
    (addToMap m k v).map Prod.fst =
      if k ∈ m.map Prod.fst then m.map Prod.fst
      else m.map Prod.fst ++ [k] := by
  induction m with
  | nil => simp [addToMap]
  | cons p rest ih =>
    obtain ⟨pk, pa⟩ := p
    by_cases hpk : pk = k
    · subst hpk; simp [addToMap]
    · by_cases hk : k ∈ rest.map Prod.fst
      · simp [addToMap, hpk, Ne.symm hpk, hk, ih]
      · simp [addToMap, hpk, Ne.symm hpk, hk, ih]

theorem mem_keys_addToMap (m : List (String × Accumulator)) (k : String)
    (v : ℚ) (s : String) :
    s ∈ (addToMap m k v).map Prod.fst ↔ s ∈ m.map Prod.fst ∨ s = k := by
  rw [keys_addToMap]
  by_cases hk : k ∈ m.map Prod.fst
  · simp only [hk, if_true]
    constructor
    · exact fun h => Or.inl h
    · rintro (h | h)
      · exact h
      · exact h ▸ hk
  · simp [hk]

theorem nodup_keys_addToMap (m : List (String × Accumulator)) (k : String)
    (v : ℚ) (h : (m.map Prod.fst).Nodup) :
    ((addToMap m k v).map Prod.fst).Nodup := by
  rw [keys_addToMap]
  by_cases hk : k ∈ m.map Prod.fst
  · simpa [hk] using h
  · simp only [hk, if_false]
    rw [List.nodup_append]
    refine ⟨h, List.nodup_singleton k, ?_⟩
    intro a ha hak
    rw [List.mem_singleton] at hak
    exact hk (hak ▸ ha)

theorem nodup_keys_foldl (l : List Record) (m : List (String × Accumulator))
    (h : (m.map Prod.fst).Nodup) :
    (((l.foldl (fun m r => addToMap m r.sensor_id r.value) m)).map Prod.fst).Nodup := by
  induction l generalizing m with
  | nil => exact h
  | cons r rest ih =>
    exact ih (addToMap m r.sensor_id r.value) (nodup_keys_addToMap m _ _ h)

theorem mem_keys_foldl (l : List Record) (m : List (String × Accumulator))
    (s : String) :
    s ∈ ((l.foldl (fun m r => addToMap m r.sensor_id r.value) m)).map Prod.fst ↔
      s ∈ m.map Prod.fst ∨ s ∈ l.map Record.sensor_id := by
  induction l generalizing m with
  | nil => simp
  | cons r rest ih =>
    rw [List.foldl_cons, ih, mem_keys_addToMap]
    simp only [List.map_cons, List.mem_cons]
    constructor
    · rintro ((h | h) | h)
      · exact Or.inl h
      · exact Or.inr (Or.inl h)
      · exact Or.inr (Or.inr h)
    · rintro (h | h | h)
      · exact Or.inl (Or.inl h)
      · exact Or.inl (Or.inr h)
      · exact Or.inr h

theorem mapGet_foldl (l : List Record) (m : List (String × Accumulator))
    (s : String) :
    mapGet (l.foldl (fun m r => addToMap m r.sensor_id r.value) m) s =
      ((l.filter (fun r => r.sensor_id = s)).map Record.value).foldl
        Accumulator.add (mapGet m s) := by
  induction l generalizing m with
  | nil => simp
  | cons r rest ih =>
    rw [List.foldl_cons, ih, List.filter_cons]
    by_cases hr : r.sensor_id = s
    · rw [if_pos (by simpa using hr), List.map_cons, List.foldl_cons]
      congr 1
      rw [mapGet_addToMap, if_pos hr.symm]
    · rw [if_neg (by simpa using hr), mapGet_addToMap, if_neg (fun hh => hr hh.symm)]

theorem foldl_add_q (l : List ℚ) (a : Accumulator) :
    l.foldl Accumulator.add a = ⟨a.count + l.length, a.sum + l.sum⟩ := by
  induction l generalizing a with
  | nil => simp
  | cons x rest ih =>
    rw [List.foldl_cons, ih, Accumulator.mk.injEq]
    simp only [Accumulator.add, List.length_cons, List.sum_cons]
    exact ⟨by omega, by ring⟩

/-- The filtered records of one sensor: what the grouped aggregator
accumulates under key `s`. -/
def sensorSlice (recs : List Record) (t : ℚ) (s : String) : List Record :=
  (recs.filter (fun r => t < r.value)).filter (fun r => r.sensor_id = s)

/-- The `SensorStats` entry the grouped aggregator produces for key `s`. -/
def sensorStatsFor (recs : List Record) (t : ℚ) (s : String) : SensorStats :=
  ⟨s, (sensorSlice recs t s).length,
    ((sensorSlice recs t s).map Record.value).sum /
      ((sensorSlice recs t s).length : ℚ)⟩

theorem mapGet_build (recs : List Record) (t : ℚ) (s : String) :
    mapGet (buildSensorMap recs t) s =
      ⟨(sensorSlice recs t s).length,
        ((sensorSlice recs t s).map Record.value).sum⟩ := by
  rw [buildSensorMap, mapGet_foldl]
  show _ = (⟨(sensorSlice recs t s).length, _⟩ : Accumulator)
  rw [sensorSlice, foldl_add_q]
  simp [mapGet, Accumulator.default]

theorem mem_keys_build (recs : List Record) (t : ℚ) (s : String) :
    s ∈ (buildSensorMap recs t).map Prod.fst ↔
      s ∈ (recs.filter (fun r => t < r.value)).map Record.sensor_id := by
  rw [buildSensorMap, mem_keys_foldl]
  simp

theorem nodup_keys_build (recs : List Record) (t : ℚ) :
    ((buildSensorMap recs t).map Prod.fst).Nodup :=
  nodup_keys_foldl _ [] (by simp)

theorem counts_sum_addToMap (m : List (String × Accumulator)) (k : String)
    (v : ℚ) :
    ((addToMap m k v).map (fun p => p.2.count)).sum =
      (m.map (fun p => p.2.count)).sum + 1 := by
  induction m with
  | nil => simp [addToMap, Accumulator.add, Accumulator.default]
  | cons p rest ih =>
    obtain ⟨pk, pa⟩ := p
    by_cases hpk : pk = k
    · subst hpk
      show ((if pk = pk then (pk, pa.add v) :: rest
          else (pk, pa) :: addToMap rest pk v).map (fun p => p.2.count)).sum = _
      rw [if_pos rfl]
      simp only [List.map_cons, List.sum_cons, Accumulator.add]
      omega
    · simp only [addToMap, if_neg hpk, List.map_cons, List.sum_cons, ih]
      omega

theorem counts_sum_foldl (l : List Record) (m : List (String × Accumulator)) :
    (((l.foldl (fun m r => addToMap m r.sensor_id r.value) m)).map
        (fun p => p.2.count)).sum =
      (m.map (fun p => p.2.count)).sum + l.length := by
  induction l generalizing m with
  | nil => simp
  | cons r rest ih =>
    rw [List.foldl_cons, ih, counts_sum_addToMap, List.length_cons]
    omega

theorem counts_sum_build (recs : List Record) (t : ℚ) :
    ((buildSensorMap recs t).map (fun p => p.2.count)).sum =
      (recs.filter (fun r => t < r.value)).length := by
  rw [buildSensorMap, counts_sum_foldl]
  simp

theorem mapGet_of_mem (m : List (String × Accumulator))
    (p : String × Accumulator) (hnd : (m.map Prod.fst).Nodup) (hp : p ∈ m) :
    mapGet m p.1 = p.2 := by
  induction m with
  | nil => cases hp
  | cons q rest ih =>
    obtain ⟨qk, qa⟩ := q
    rw [List.map_cons, List.nodup_cons] at hnd
    rcases List.mem_cons.mp hp with h | h
    · subst h; simp [mapGet]
    · have hq : qk ≠ p.1 := by
        intro hh
        apply hnd.1
        rw [hh]
        exact @List.mem_map_of_mem _ _ rest p Prod.fst h
      simp only [mapGet, if_neg hq]
      exact ih hnd.2 h

theorem mem_of_mem_keys (m : List (String × Accumulator)) (s : String)
    (h : s ∈ m.map Prod.fst) : (s, mapGet m s) ∈ m := by
  induction m with
  | nil => simp at h
  | cons q rest ih =>
    obtain ⟨qk, qa⟩ := q
    by_cases hqs : qk = s
    · subst hqs; simp [mapGet]
    · simp only [mapGet, if_neg hqs]
      have h' : s ∈ rest.map Prod.fst := by
        rw [List.map_cons] at h
        rcases List.mem_cons.mp h with hh | hh
        · exact absurd hh.symm hqs
        · exact hh
      exact List.mem_cons_of_mem _ (ih h')

theorem mem_perSensor_iff (recs : List Record) (t : ℚ) (x : SensorStats) :
    x ∈ compute_per_sensor_stats recs t ↔
      x.sensor_id ∈ (recs.filter (fun r => t < r.value)).map Record.sensor_id ∧
        x = sensorStatsFor recs t x.sensor_id := by
  rw [compute_per_sensor_stats, List.mem_insertionSort, List.mem_map]
  constructor
  · rintro ⟨p, hp, rfl⟩
    have h1 : p.1 ∈ (buildSensorMap recs t).map Prod.fst :=
      List.mem_map_of_mem Prod.fst hp
    have h2 : mapGet (buildSensorMap recs t) p.1 = p.2 :=
      mapGet_of_mem _ _ (nodup_keys_build recs t) hp
    refine ⟨(mem_keys_build recs t p.1).mp h1, ?_⟩
    rw [sensorStatsFor]
    rw [mapGet_build] at h2
    rw [← h2]
  · rintro ⟨hmem, hx⟩
    refine ⟨(x.sensor_id, mapGet (buildSensorMap recs t) x.sensor_id),
      mem_of_mem_keys _ _ ((mem_keys_build recs t x.sensor_id).mpr hmem), ?_⟩
    rw [mapGet_build]
    exact hx.symm

instance : IsTotal SensorStats (fun a b => a.sensor_id ≤ b.sensor_id) :=
  ⟨fun a b => le_total a.sensor_id b.sensor_id⟩

instance : IsTrans SensorStats (fun a b => a.sensor_id ≤ b.sensor_id) :=
  ⟨fun _ _ _ h1 h2 => le_trans h1 h2⟩

instance : IsAntisymm SensorStats (fun a b => a.sensor_id < b.sensor_id) :=
  ⟨fun _ _ h1 h2 => absurd (lt_trans h1 h2) (lt_irrefl _)⟩

theorem perSensor_ids_nodup (recs : List Record) (t : ℚ) :
    ((compute_per_sensor_stats recs t).map
      (fun x => x.sensor_id)).Nodup := by
  have hperm :
      (compute_per_sensor_stats recs t).Perm
        ((buildSensorMap recs t).map
          (fun p => (⟨p.1, p.2.count, p.2.sum / (p.2.count : ℚ)⟩ : SensorStats))) :=
    List.perm_insertionSort _ _
  have hmm := (hperm.map (fun x : SensorStats => x.sensor_id)).nodup_iff
  rw [hmm, List.map_map]
  exact nodup_keys_build recs t

theorem perSensor_sorted_lt (recs : List Record) (t : ℚ) :
    (compute_per_sensor_stats recs t).Pairwise
      (fun a b => a.sensor_id < b.sensor_id) := by
  have hsorted :
      (compute_per_sensor_stats recs t).Pairwise
        (fun a b => a.sensor_id ≤ b.sensor_id) :=
    List.sorted_insertionSort _ _
  have hne :
      (compute_per_sensor_stats recs t).Pairwise
        (fun a b => a.sensor_id ≠ b.sensor_id) :=
    List.pairwise_map.mp (perSensor_ids_nodup recs t)
  exact (hsorted.and hne).imp (fun h => lt_of_le_of_ne h.1 h.2)

theorem perSensor_counts_sum (recs : List Record) (t : ℚ) :
    ((compute_per_sensor_stats recs t).map SensorStats.count).sum =
      (recs.filter (fun r => t < r.value)).length := by
  have hperm :
      (compute_per_sensor_stats recs t).Perm
        ((buildSensorMap recs t).map
          (fun p => (⟨p.1, p.2.count, p.2.sum / (p.2.count : ℚ)⟩ : SensorStats))) :=
    List.perm_insertionSort _ _
  rw [(hperm.map SensorStats.count).sum_eq, List.map_map]
  exact counts_sum_build recs t

/-! ## C3 and C6 -/

/-- C3: for every run of `process` with verbose set, the `per_sensor`
counts sum to `filtered_rows`, the sequence is strictly sorted ascending
by `sensor_id` (lexicographic string order), and it has no duplicate
`sensor_id` keys. -/
theorem C3_per_sensor_partition_and_sorted (content : List (List String))
    (t : ℚ) (recs : List Record) (s : ProcessingStats) (out : List String)
    (hr : read_csv content = .ok recs)
    (hp : process content t true = .ok (s, out)) :
    (s.per_sensor.map SensorStats.count).sum = s.filtered_rows ∧
      s.per_sensor.Pairwise (fun a b => a.sensor_id < b.sensor_id) ∧
      (s.per_sensor.map (fun x => x.sensor_id)).Nodup := by
  have h := process_ok_elim content t true recs s out hr hp
  have hs : (assembleStats recs t true).1 = s := by rw [h]
  have hps : s.per_sensor = compute_per_sensor_stats recs t := by
    rw [← hs, assembleStats_per_sensor]; simp
  have hfr : s.filtered_rows = (recs.filter (fun r => t < r.value)).length := by
    rw [← hs, assembleStats_filtered_rows]
  rw [hps, hfr]
  exact ⟨perSensor_counts_sum recs t, perSensor_sorted_lt recs t,
    perSensor_ids_nodup recs t⟩

theorem C3_witness :
    (([⟨"S1", 2, 70⟩, (⟨"S2", 1, 90⟩ : SensorStats)].map SensorStats.count).sum = 3 ∧
      [⟨"S1", 2, 70⟩, (⟨"S2", 1, 90⟩ : SensorStats)].Pairwise
        (fun a b => a.sensor_id < b.sensor_id) ∧
      ([⟨"S1", 2, 70⟩, (⟨"S2", 1, 90⟩ : SensorStats)].map
        (fun x => x.sensor_id)).Nodup) :=
  C3_per_sensor_partition_and_sorted
    [["Timestamp", "SensorID", "Value"], ["t0", "S1", "60.0"],
      ["t1", "S1", "80.0"], ["t2", "S2", "90.0"], ["t3", "S2", "10.0"]]
    50
    [⟨"t0", "S1", 60⟩, ⟨"t1", "S1", 80⟩, ⟨"t2", "S2", 90⟩, ⟨"t3", "S2", 10⟩]
    ⟨4, 3, some (230 / 3), [⟨"S1", 2, 70⟩, ⟨"S2", 1, 90⟩]⟩
    (print_sensor_table [⟨"S1", 2, 70⟩, ⟨"S2", 1, 90⟩])
    (by with_unfolding_all decide) (by with_unfolding_all decide)

/-- C6: every key present in the grouped-aggregation map carries an
accumulator with strictly positive count (keys are only created by an
`add`), so the per-sensor `sum / count` never divides by zero; the
counts in the produced `SensorStats` are positive as well. -/
theorem C6_group_counts_positive :
    (∀ (recs : List Record) (t : ℚ) (p : String × Accumulator),
        p ∈ buildSensorMap recs t → 0 < p.2.count) ∧
    (∀ (recs : List Record) (t : ℚ) (x : SensorStats),
        x ∈ compute_per_sensor_stats recs t → 0 < x.count) := by
  have hslice : ∀ (recs : List Record) (t : ℚ) (s : String),
      s ∈ (recs.filter (fun r => t < r.value)).map Record.sensor_id →
      0 < (sensorSlice recs t s).length := by
    intro recs t s hmem
    rcases List.mem_map.mp hmem with ⟨r, hr, hrs⟩
    have : r ∈ sensorSlice recs t s := by
      rw [sensorSlice, List.mem_filter]
      exact ⟨hr, by simpa using hrs⟩
    exact List.length_pos_of_mem this
  constructor
  · intro recs t p hp
    have h2 : mapGet (buildSensorMap recs t) p.1 = p.2 :=
      mapGet_of_mem _ _ (nodup_keys_build recs t) hp
    rw [mapGet_build] at h2
    have h1 : p.1 ∈ (buildSensorMap recs t).map Prod.fst :=
      List.mem_map_of_mem Prod.fst hp
    have := hslice recs t p.1 ((mem_keys_build recs t p.1).mp h1)
    rw [← h2]
    exact this
  · intro recs t x hx
    rcases (mem_perSensor_iff recs t x).mp hx with ⟨hmem, hxf⟩
    have := hslice recs t x.sensor_id hmem
    rw [hxf]
    exact this

theorem C6_witness :
    0 < (Accumulator.mk 1 60).count :=
  C6_group_counts_positive.1 [⟨"t0", "S1", 60⟩] 50 ("S1", ⟨1, 60⟩)
    (by with_unfolding_all decide)

/-! ## C7: determinism and order/partition independence -/

theorem foldl_merge (accs : List Accumulator) (a : Accumulator) :
    accs.foldl Accumulator.merge a =
      ⟨a.count + (accs.map Accumulator.count).sum,
        a.sum + (accs.map Accumulator.sum).sum⟩ := by
  induction accs generalizing a with
  | nil => simp
  | cons x rest ih =>
    rw [List.foldl_cons, ih, Accumulator.mk.injEq]
    simp only [Accumulator.merge, List.map_cons, List.sum_cons]
    exact ⟨by omega, by ring⟩

theorem join_filter_length (p : Record → Bool) (chunks : List (List Record)) :
    ((chunks.join).filter p).length =
      (chunks.map (fun c => (c.filter p).length)).sum := by
  induction chunks with
  | nil => simp
  | cons c cs ih => simp [List.filter_append, ih, Function.comp_def]

theorem join_filter_sum (p : Record → Bool) (chunks : List (List Record)) :
    (((chunks.join).filter p).map Record.value).sum =
      (chunks.map (fun c => ((c.filter p).map Record.value).sum)).sum := by
  induction chunks with
  | nil => simp
  | cons c cs ih => simp [List.filter_append, ih, Function.comp_def]

theorem reduce_partition (t : ℚ) (chunks : List (List Record)) :
    reduceAccs (chunks.map (foldChunk t)) = globalAcc chunks.join t := by
  rw [reduceAccs, foldl_merge, globalAcc_eq, Accumulator.mk.injEq]
  constructor
  · rw [join_filter_length]
    simp [List.map_map, foldChunk_eq, Accumulator.default, Function.comp_def]
  · rw [join_filter_sum]
    simp [List.map_map, foldChunk_eq, Accumulator.default, Function.comp_def]

theorem perSensor_perm (t : ℚ) (recs recs' : List Record)
    (h : recs.Perm recs') :
    compute_per_sensor_stats recs t = compute_per_sensor_stats recs' t := by
  have hf : (recs.filter (fun r => t < r.value)).Perm
      (recs'.filter (fun r => t < r.value)) := h.filter _
  have hmem : ∀ x, x ∈ compute_per_sensor_stats recs t ↔
      x ∈ compute_per_sensor_stats recs' t := by
    intro x
    rw [mem_perSensor_iff, mem_perSensor_iff]
    have h1 : x.sensor_id ∈ (recs.filter (fun r => t < r.value)).map
          Record.sensor_id ↔
        x.sensor_id ∈ (recs'.filter (fun r => t < r.value)).map
          Record.sensor_id :=
      (hf.map Record.sensor_id).mem_iff
    have h2 : sensorStatsFor recs t x.sensor_id =
        sensorStatsFor recs' t x.sensor_id := by
      have hs : (sensorSlice recs t x.sensor_id).Perm
          (sensorSlice recs' t x.sensor_id) := hf.filter _
      rw [sensorStatsFor, sensorStatsFor, hs.length_eq,
        (hs.map Record.value).sum_eq]
    rw [h1, h2]
  have hlt_ne : ∀ {a b : SensorStats}, a.sensor_id < b.sensor_id → a ≠ b := by
    intro a b hlt heq
    rw [heq] at hlt
    exact lt_irrefl _ hlt
  have hndA : (compute_per_sensor_stats recs t).Nodup :=
    (perSensor_sorted_lt recs t).imp hlt_ne
  have hndB : (compute_per_sensor_stats recs' t).Nodup :=
    (perSensor_sorted_lt recs' t).imp hlt_ne
  have hperm : (compute_per_sensor_stats recs t).Perm
      (compute_per_sensor_stats recs' t) :=
    List.Subperm.antisymm
      (List.subperm_of_subset hndA (fun x hx => (hmem x).mp hx))
      (List.subperm_of_subset hndB (fun x hx => (hmem x).mpr hx))
  exact List.eq_of_perm_of_sorted hperm (perSensor_sorted_lt recs t)
    (perSensor_sorted_lt recs' t)

theorem assembleStats_perm (t : ℚ) (v : Bool) (recs recs' : List Record)
    (h : recs.Perm recs') :
    assembleStats recs t v = assembleStats recs' t v := by
  have hf : (recs.filter (fun r => t < r.value)).Perm
      (recs'.filter (fun r => t < r.value)) := h.filter _
  have hga : globalAcc recs t = globalAcc recs' t := by
    rw [globalAcc_eq, globalAcc_eq, Accumulator.mk.injEq]
    exact ⟨hf.length_eq, (hf.map Record.value).sum_eq⟩
  simp only [assembleStats, hga, h.length_eq, perSensor_perm t recs recs' h]

/-- C7: `process` is deterministic — two runs on the same content,
threshold and verbose flag return the same result — and the result does
not depend on how rayon partitions the records across workers
(`reduceAccs` over any chunking equals the global aggregation of the
whole list) nor on the order in which records are aggregated
(`assembleStats` is invariant under permutation of the record list). -/
theorem C7_process_deterministic :
    (∀ (content : List (List String)) (t : ℚ) (v : Bool),
        process content t v = process content t v) ∧
    (∀ (t : ℚ) (chunks : List (List Record)),
        reduceAccs (chunks.map (foldChunk t)) = globalAcc chunks.join t) ∧
    (∀ (t : ℚ) (v : Bool) (recs recs' : List Record), recs.Perm recs' →
        assembleStats recs t v = assembleStats recs' t v) :=
  ⟨fun _ _ _ => rfl, reduce_partition, assembleStats_perm⟩

theorem C7_witness :
    assembleStats [⟨"t0", "S1", 60⟩, ⟨"t1", "S2", 90⟩] 50 true =
      assembleStats [⟨"t1", "S2", 90⟩, ⟨"t0", "S1", 60⟩] 50 true :=
  C7_process_deterministic.2.2 50 true
    [⟨"t0", "S1", 60⟩, ⟨"t1", "S2", 90⟩]
    [⟨"t1", "S2", 90⟩, ⟨"t0", "S1", 60⟩]
    (by with_unfolding_all decide)

/-! ## C4: a bad row fails the whole run, with no partial result -/

theorem parseRow_ok_any_idx (header row : List String) (i j : ℕ) (r : Record)
    (h : parseRow header i row = .ok r) : parseRow header j row = .ok r := by
  unfold parseRow at h ⊢
  split at h
  next => exact absurd h (by simp)
  next hlen =>
    rw [if_neg hlen]
    split at h
    next => exact absurd h (by simp)
    next it ht =>
      split at h
      next => exact absurd h (by simp)
      next is hs =>
        split at h
        next => exact absurd h (by simp)
        next iv hv =>
          dsimp only at h ⊢
          split at h
          next hq => exact absurd h (by simp)
          next q hq => exact h

theorem parseRows_error_of_bad (header : List String)
    (rows : List (List String)) (row : List String) (hmem : row ∈ rows)
    (e : ParseError) (i0 : ℕ) (hbad : parseRow header i0 row = .error e) :
    ∀ i, ∃ e', parseRows header i rows = .error e' := by
  induction rows with
  | nil => cases hmem
  | cons r rest ih =>
    intro i
    match hr : parseRow header i r with
    | .error e'' => exact ⟨e'', by rw [parseRows, hr]⟩
    | .ok rec =>
      have hrow : row ∈ rest := by
        rcases List.mem_cons.mp hmem with hh | hh
        · subst hh
          have := parseRow_ok_any_idx header row i i0 rec hr
          rw [this] at hbad
          exact absurd hbad (by simp)
        · exact hh
      rcases ih hrow (i + 1) with ⟨e', he'⟩
      exact ⟨e', by rw [parseRows, hr, he']⟩

/-- C4: if any row of the input cannot be deserialized, `process` fails
with a `ParseError` and returns no statistics at all: a `read_csv`
failure propagates unchanged through `process` (no partial result), and
one bad row anywhere in the input forces such a failure. -/
theorem C4_parse_failure_is_total (content : List (List String)) :
    (∀ (t : ℚ) (v : Bool) (e : ParseError),
        read_csv content = .error e → process content t v = .error e) ∧
    (∀ (hd : List String) (rows : List (List String)) (row : List String)
        (t : ℚ) (v : Bool) (e : ParseError) (i : ℕ),
      content = hd :: rows → row ∈ rows →
      parseRow (hd.map trimStr) i (row.map trimStr) = .error e →
      ∃ e', process content t v = .error e') := by
  constructor
  · intro t v e he
    rw [process, he]
  · intro hd rows row t v e i hcontent hmem hbad
    subst hcontent
    have hmem' : row.map trimStr ∈ rows.map (fun r => r.map trimStr) :=
      List.mem_map_of_mem _ hmem
    rcases parseRows_error_of_bad (hd.map trimStr) _ _ hmem' e i hbad 0 with
      ⟨e', he'⟩
    have hread : read_csv (hd :: rows) = .error e' := by
      rw [read_csv]
      simp only [List.map_cons]
      exact he'
    exact ⟨e', by rw [process, hread]⟩

theorem C4_witness :
    (read_csv [["Timestamp", "SensorID", "Value"], ["t0", "S1", "10.0"],
        ["t1", "S2", "abc"]] = .error (.badValue "abc" 1) →
      process [["Timestamp", "SensorID", "Value"], ["t0", "S1", "10.0"],
        ["t1", "S2", "abc"]] 0 false = .error (.badValue "abc" 1)) ∧
    (∃ e', process [["Timestamp", "SensorID", "Value"], ["t0", "S1", "10.0"],
        ["t1", "S2", "abc"]] 0 false = .error e') := by
  constructor
  · exact (C4_parse_failure_is_total
      [["Timestamp", "SensorID", "Value"], ["t0", "S1", "10.0"],
        ["t1", "S2", "abc"]]).1 0 false (.badValue "abc" 1)
  · exact (C4_parse_failure_is_total
      [["Timestamp", "SensorID", "Value"], ["t0", "S1", "10.0"],
        ["t1", "S2", "abc"]]).2
      ["Timestamp", "SensorID", "Value"] [["t0", "S1", "10.0"], ["t1", "S2", "abc"]]
      ["t1", "S2", "abc"] 0 false (.badValue "abc" 42) 42 rfl
      (by with_unfolding_all decide) (by with_unfolding_all decide)

/-! ## C9: console output of `process` itself -/

/-- The console lines a `process` call prints (none when it fails
before aggregating). -/
def outputOf (r : Except ParseError (ProcessingStats × List String)) :
    List String :=
  match r with
  | .ok p => p.2
  | .error _ => []

/-- C9 as stated is false: with `verbose = true` and a non-empty
per-sensor table, `process` prints the table itself
(`print_sensor_table` is called from inside `process`). -/
theorem C9_counterexample :
    outputOf (process [["Timestamp", "SensorID", "Value"],
      ["t0", "S1", "60.0"]] 50 true) ≠ [] := by
  with_unfolding_all decide

/-- The console output of the assembled result: the sensor table
exactly when `verbose` is set and `per_sensor` is non-empty, nothing
otherwise. -/
theorem assembleStats_output (recs : List Record) (t : ℚ) (v : Bool) :
    (assembleStats recs t v).2 =
      (if v && !(assembleStats recs t v).1.per_sensor.isEmpty
       then print_sensor_table (assembleStats recs t v).1.per_sensor
       else []) := rfl

/-- C9 (amended): `process` performs no console output when `verbose`
is false; when `verbose` is true and the per-sensor statistics are
non-empty it prints the sensor table itself; and that is its only
console output (any non-empty output forces the verbose non-empty
case, and so equals the table). -/
theorem C9_output_only_when_verbose (content : List (List String))
    (t : ℚ) (v : Bool) (s : ProcessingStats) (out : List String)
    (hp : process content t v = .ok (s, out)) :
    (v = false → out = []) ∧
      (v = true → s.per_sensor ≠ [] →
        out = print_sensor_table s.per_sensor) ∧
      (out ≠ [] → v = true ∧ s.per_sensor ≠ []) := by
  match hr : read_csv content with
  | .error e => rw [process, hr] at hp; exact absurd hp (by simp)
  | .ok recs =>
    have h := process_ok_elim content t v recs s out hr hp
    have hout : (assembleStats recs t v).2 = out := by rw [h]
    have hs : (assembleStats recs t v).1 = s := by rw [h]
    have hbody : out =
        (if v && !s.per_sensor.isEmpty
         then print_sensor_table s.per_sensor else []) := by
      rw [← hs, ← hout]
      exact assembleStats_output recs t v
    refine ⟨?_, ?_, ?_⟩
    · intro hv
      subst hv
      simpa using hbody
    · intro hv hne
      subst hv
      have hE : s.per_sensor.isEmpty = false := by
        cases hsp : s.per_sensor with
        | nil => exact absurd hsp hne
        | cons a l => rfl
      rw [hbody, hE]
      rfl
    · intro hne
      cases v with
      | false => simp at hbody; exact absurd hbody hne
      | true =>
        refine ⟨rfl, ?_⟩
        intro hempty
        rw [hempty] at hbody
        simp at hbody
        exact hne hbody

theorem C9_witness :
    ((false = false → ([] : List String) = []) ∧
      (false = true →
        (ProcessingStats.mk 1 1 (some 60) []).per_sensor ≠ [] →
        ([] : List String) =
          print_sensor_table (ProcessingStats.mk 1 1 (some 60) []).per_sensor) ∧
      (([] : List String) ≠ [] →
        false = true ∧
          (ProcessingStats.mk 1 1 (some 60) []).per_sensor ≠ [])) ∧
    ((true = false → print_sensor_table [⟨"S1", 1, 60⟩] = []) ∧
      (true = true → ([⟨"S1", 1, 60⟩] : List SensorStats) ≠ [] →
        print_sensor_table [⟨"S1", 1, 60⟩] =
          print_sensor_table [⟨"S1", 1, 60⟩]) ∧
      (print_sensor_table [⟨"S1", 1, 60⟩] ≠ [] →
        true = true ∧ ([⟨"S1", 1, 60⟩] : List SensorStats) ≠ [])) :=
  ⟨C9_output_only_when_verbose
      [["Timestamp", "SensorID", "Value"], ["t0", "S1", "60.0"]] 50 false
      ⟨1, 1, some 60, []⟩ [] (by with_unfolding_all decide),
    C9_output_only_when_verbose
      [["Timestamp", "SensorID", "Value"], ["t0", "S1", "60.0"]] 50 true
      ⟨1, 1, some 60, [⟨"S1", 1, 60⟩]⟩ (print_sensor_table [⟨"S1", 1, 60⟩])
      (by with_unfolding_all decide)⟩

/-! ## C8: header matching by name, field trimming -/

theorem trimStr_lit_T : trimStr "Timestamp" = "Timestamp" := by decide

theorem trimStr_lit_S : trimStr "SensorID" = "SensorID" := by decide

theorem trimStr_lit_V : trimStr "Value" = "Value" := by decide

theorem dropWhile_ws_append (w l : List Char) (hw : w.all isWs) :
    (w ++ l).dropWhile isWs = l.dropWhile isWs := by
  induction w with
  | nil => simp
  | cons c cs ih =>
    rw [List.all_cons, Bool.and_eq_true] at hw
    rw [List.cons_append, List.dropWhile_cons, if_pos hw.1]
    exact ih hw.2

theorem all_ws_dropWhile_nil (w : List Char) (hw : w.all isWs) :
    w.dropWhile isWs = [] := by
  simpa using dropWhile_ws_append w [] hw

theorem trimChars_ws_left (w l : List Char) (hw : w.all isWs) :
    trimChars (w ++ l) = trimChars l := by
  rw [trimChars, trimChars, dropWhile_ws_append w l hw]

theorem trimChars_ws_right (l w : List Char) (hw : w.all isWs) :
    trimChars (l ++ w) = trimChars l := by
  rw [trimChars, trimChars, List.dropWhile_append]
  by_cases hE : (l.dropWhile isWs).isEmpty = true
  · rw [if_pos hE, all_ws_dropWhile_nil w hw, List.isEmpty_iff.mp hE]
  · rw [if_neg hE, List.reverse_append,
      dropWhile_ws_append _ _ (by rw [List.all_reverse]; exact hw)]

/-- Surrounding whitespace is removed by the reader's cell trim. -/
theorem trimStr_pad (w1 w2 s : String) (h1 : w1.toList.all isWs = true)
    (h2 : w2.toList.all isWs = true) :
    trimStr (w1 ++ s ++ w2) = trimStr s := by
  rw [trimStr, trimStr]
  congr 1
  have hsplit : (w1 ++ s ++ w2).toList =
      w1.toList ++ (s.toList ++ w2.toList) := by
    simp
  rw [hsplit, trimChars_ws_left _ _ h1,
    ← trimChars_ws_right s.toList w2.toList h2]

/-- C8: the reader matches the three columns by header name, not by
position — every order of the `Timestamp`, `SensorID`, `Value` columns
yields the same record — and every field value is trimmed of leading
and trailing whitespace before type coercion (the value field is parsed
from its trimmed text, and surrounding whitespace never changes a
trimmed cell). -/
theorem C8_columns_by_name_fields_trimmed :
    (∀ (ts sid v : String) (q : ℚ), parseFloat (trimStr v) = some q →
      read_csv [["Timestamp", "SensorID", "Value"], [ts, sid, v]] =
          .ok [⟨trimStr ts, trimStr sid, q⟩] ∧
        read_csv [["Timestamp", "Value", "SensorID"], [ts, v, sid]] =
          .ok [⟨trimStr ts, trimStr sid, q⟩] ∧
        read_csv [["SensorID", "Timestamp", "Value"], [sid, ts, v]] =
          .ok [⟨trimStr ts, trimStr sid, q⟩] ∧
        read_csv [["SensorID", "Value", "Timestamp"], [sid, v, ts]] =
          .ok [⟨trimStr ts, trimStr sid, q⟩] ∧
        read_csv [["Value", "Timestamp", "SensorID"], [v, ts, sid]] =
          .ok [⟨trimStr ts, trimStr sid, q⟩] ∧
        read_csv [["Value", "SensorID", "Timestamp"], [v, sid, ts]] =
          .ok [⟨trimStr ts, trimStr sid, q⟩]) ∧
    (∀ (w1 w2 s : String), w1.toList.all isWs = true →
        w2.toList.all isWs = true →
        trimStr (w1 ++ s ++ w2) = trimStr s) := by
  constructor
  · intro ts sid v q hq
    refine ⟨?_, ?_, ?_, ?_, ?_, ?_⟩ <;>
      simp [read_csv, parseRows, parseRow, colIdx, hq, trimStr_lit_T,
        trimStr_lit_S, trimStr_lit_V]
  · exact trimStr_pad

theorem C8_witness :
    (read_csv [["Timestamp", "SensorID", "Value"],
          [" t0 ", " S1 ", " 10.5 "]] =
        .ok [⟨trimStr " t0 ", trimStr " S1 ", 21 / 2⟩] ∧
      read_csv [["Timestamp", "Value", "SensorID"],
          [" t0 ", " 10.5 ", " S1 "]] =
        .ok [⟨trimStr " t0 ", trimStr " S1 ", 21 / 2⟩] ∧
      read_csv [["SensorID", "Timestamp", "Value"],
          [" S1 ", " t0 ", " 10.5 "]] =
        .ok [⟨trimStr " t0 ", trimStr " S1 ", 21 / 2⟩] ∧
      read_csv [["SensorID", "Value", "Timestamp"],
          [" S1 ", " 10.5 ", " t0 "]] =
        .ok [⟨trimStr " t0 ", trimStr " S1 ", 21 / 2⟩] ∧
      read_csv [["Value", "Timestamp", "SensorID"],
          [" 10.5 ", " t0 ", " S1 "]] =
        .ok [⟨trimStr " t0 ", trimStr " S1 ", 21 / 2⟩] ∧
      read_csv [["Value", "SensorID", "Timestamp"],
          [" 10.5 ", " S1 ", " t0 "]] =
        .ok [⟨trimStr " t0 ", trimStr " S1 ", 21 / 2⟩]) ∧
    trimStr (" " ++ "abc" ++ "\t") = trimStr "abc" :=
  ⟨C8_columns_by_name_fields_trimmed.1 " t0 " " S1 " " 10.5 " (21 / 2)
      (by with_unfolding_all decide),
    C8_columns_by_name_fields_trimmed.2 " " "\t" "abc"
      (by decide) (by decide)⟩

end RustCLI
